import Mathlib

/-!
Shallow embedding of `src/solar_prod_planner_cloud_cover.py`.

The core of the repository is the Dash callback `update_solar_production`
(lines 86-130) together with the helper `fetch_cloud_cover` (lines 53-73).
We embed them as pure Lean functions:

* UTC timestamps are modelled as rational numbers of seconds since the epoch;
  `timedelta(minutes=10*j)` becomes `+ 600 * j`, `timedelta(hours=h)` becomes
  `+ h * 3600`, and `strftime("%Y-%m-%d")` (the calendar-date cache key)
  becomes the epoch-day number `⌊t / 86400⌋` (the Gregorian calendar date and
  the epoch-day number are in bijection for UTC instants).
* Floating point arithmetic is idealised as exact rational arithmetic, except
  for `np.sin` which is modelled by `Real.sin` (so instantaneous power and the
  accumulated total live in `ℝ`).
* The external collaborators (pvlib's `get_solarposition`, geopy's `geodesic`
  and the NASA POWER HTTP endpoint) are parameters of the simulation,
  collected in an `Env` record: an elevation oracle, a distance oracle and a
  response oracle.  `fetch_cloud_cover` itself (status check, JSON shape
  check, parameter lookup, default) is code of the repository and is embedded
  directly, over an abstract `CloudResponse`.
* The mutable loop state (`current_time`, `cloud_cover_cache`, the `times` /
  `production_values` lists) becomes an explicit `SimState` record threaded
  through folds; the calls actually issued to the cloud-cover provider are
  recorded in the state so that frame-effect claims can be stated.
* `not geojson or "features" not in geojson or not geojson["features"]`
  (line 87) is modelled by a doubly-optional feature list: `none` is a falsy
  `geojson`, `some none` is a dict without a `"features"` key, `some (some
  [])` is an empty feature list.  A feature is its `geometry.coordinates`
  list of `(lon, lat)` pairs.
-/

/- Batteries marks the rational-number operations `@[irreducible]`, which
blocks `decide`-style evaluation of the (otherwise fully computable)
simulation on concrete inputs; restore the default reducibility locally. -/
attribute [local semireducible] Rat.add Rat.mul Rat.inv Rat.sub Rat.ofScientific

namespace Solar

/-- Python `int()` on a rational: truncation toward zero
(`int(x)` for `x ≥ 0` is `⌊x⌋`). -/
def ratTrunc (q : ℚ) : ℤ := if 0 ≤ q then ⌊q⌋ else -⌊-q⌋

/-- The cache key `times_segment[j].strftime("%Y-%m-%d")`: the UTC calendar
date of an epoch-second timestamp, as an epoch-day number. -/
def dateKey (t : ℚ) : ℤ := ⌊t / 86400⌋

/-- The JSON body of a NASA POWER response, as far as `fetch_cloud_cover`
inspects it: `malformed` (the `response.json()` call raises), `missingKeys`
(one of `"properties"`, `"parameter"`, `"CLOUD_AMT"` is absent), or the
`CLOUD_AMT` table mapping a formatted date to a percentage. -/
inductive CloudBody
  | malformed
  | missingKeys
  | amt (m : List (ℤ × ℚ))
deriving DecidableEq

/-- An HTTP response from the cloud-cover provider. -/
structure CloudResponse where
  status : ℕ
  body : CloudBody
deriving DecidableEq

/-- Lines 53-73: returns `CLOUD_AMT[date] / 100` on a fully well-formed `200`
response (with `.get(formatted_date, 0)` defaulting a missing date to `0`),
and `0` on a non-200 status, an unparsable body, or a body missing one of the
expected keys. -/
def fetch_cloud_cover (r : CloudResponse) (d : ℤ) : ℚ :=
  if r.status = 200 then
    match r.body with
    | CloudBody.amt m => ((List.lookup d m).getD 0) / 100
    | _ => 0
  else 0

/-- The external collaborators of the callback: the solar-position oracle
(`get_solarposition(...)["apparent_elevation"]`, degrees, for a timestamp and
a position), the great-circle distance oracle (`geodesic(start, end).km`) and
the provider's HTTP response for a `(lat, lon, date)` query. -/
structure Env where
  elev : ℚ → ℚ → ℚ → ℚ
  dist : ℚ × ℚ → ℚ × ℚ → ℚ
  resp : ℚ → ℚ → ℤ → CloudResponse

/-- The form inputs of the callback: panel surface area (m²), yield (kW/m²),
start timestamp (UTC epoch seconds), vessel speed (km/h), and whether the
`"on"` value is present in the cloud toggle. -/
structure Config where
  surface_area : ℚ
  kw_per_m2 : ℚ
  start : ℚ
  vessel_speed : ℚ
  apply_cloud : Bool

/-- One retained evaluation point: timestamp, position, apparent solar
elevation (degrees) and the attenuation factor it was evaluated with.  The
power appended to `production_values` is `segment_production` below. -/
structure Sample where
  t : ℚ
  lat : ℚ
  lon : ℚ
  alt : ℚ
  att : ℚ
deriving DecidableEq

/-- A query actually issued to the cloud-cover provider (line 113). -/
structure Call where
  lat : ℚ
  lon : ℚ
  date : ℤ
deriving DecidableEq

/-- The mutable state of the callback's main loop: `current_time`,
`cloud_cover_cache` (a date-keyed dictionary), the list of issued provider
calls, and the retained samples (the `times` / `production_values` pair). -/
structure SimState where
  time : ℚ
  cache : ℤ → Option ℚ
  calls : List Call
  samples : List Sample

/-- Initial loop state (lines 92-96). -/
def initState (cfg : Config) : SimState :=
  { time := cfg.start, cache := fun _ => none, calls := [], samples := [] }

/-- Lines 110-123, the body of the inner loop for one point `(t, lat, lon)`:
consult/populate the date-keyed cache (fetching from the provider when the
date is new), compute the attenuation, and retain the sample iff the apparent
elevation is positive. -/
def processPoint (env : Env) (cfg : Config) (st : SimState) (p : ℚ × ℚ × ℚ) :
    SimState :=
  let dk := dateKey p.1
  let cache : ℤ → Option ℚ :=
    if (st.cache dk).isSome then st.cache
    else fun d =>
      if d = dk then some (fetch_cloud_cover (env.resp p.2.1 p.2.2 dk) dk)
      else st.cache d
  let calls : List Call :=
    if (st.cache dk).isSome then st.calls
    else st.calls ++ [⟨p.2.1, p.2.2, dk⟩]
  let attenuation : ℚ := if cfg.apply_cloud then 1 - (cache dk).getD 0 else 1
  let alt := env.elev p.1 p.2.1 p.2.2
  { time := st.time
    cache := cache
    calls := calls
    samples :=
      if 0 < alt then st.samples ++ [⟨p.1, p.2.1, p.2.2, alt, attenuation⟩]
      else st.samples }

/-- Line 102: the segment's traversal duration in seconds,
`timedelta(hours=segment_distance / vessel_speed).total_seconds()`. -/
def segDurS (env : Env) (cfg : Config) (seg : (ℚ × ℚ) × (ℚ × ℚ)) : ℚ :=
  env.dist seg.1 seg.2 / cfg.vessel_speed * 3600

/-- Line 103: `num_steps = max(2, int(segment_duration.total_seconds() / 600))`. -/
def segSteps (env : Env) (cfg : Config) (seg : (ℚ × ℚ) × (ℚ × ℚ)) : ℕ :=
  (max 2 (ratTrunc (segDurS env cfg seg / 600))).toNat

/-- `np.linspace(a, b, n)[j] = a + (b - a) * j / (n - 1)` (for the `n ≥ 2`
sample counts produced by `segSteps`). -/
def linspace (a b : ℚ) (n j : ℕ) : ℚ := a + (b - a) * j / ((n : ℚ) - 1)

/-- Lines 105-107: the evaluation points of one segment starting at running
time `t0`: the `j`-th point has timestamp `t0 + 10·j` minutes and linearly
interpolated coordinates. -/
def segPts (env : Env) (cfg : Config) (t0 : ℚ) (seg : (ℚ × ℚ) × (ℚ × ℚ)) :
    List (ℚ × ℚ × ℚ) :=
  (List.range (segSteps env cfg seg)).map fun (j : ℕ) =>
    (t0 + 600 * (j : ℚ),
     linspace seg.1.1 seg.2.1 (segSteps env cfg seg) j,
     linspace seg.1.2 seg.2.2 (segSteps env cfg seg) j)

/-- Lines 100-123, one iteration of the outer loop: evaluate every point of
the segment, and advance the running clock by the full traversal duration
(line 108: `current_time += segment_duration`). -/
def processSegment (env : Env) (cfg : Config) (st : SimState)
    (seg : (ℚ × ℚ) × (ℚ × ℚ)) : SimState :=
  let st2 := (segPts env cfg st.time seg).foldl (processPoint env cfg) st
  { st2 with time := st.time + segDurS env cfg seg }

/-- The consecutive waypoint pairs `(route_positions[i], route_positions[i+1])`
of the outer loop (line 99-100). -/
def segsOf (ps : List (ℚ × ℚ)) : List ((ℚ × ℚ) × (ℚ × ℚ)) := ps.zip ps.tail

/-- Lines 92-123: the whole route loop, from the initial state. -/
def runRoute (env : Env) (cfg : Config) (ps : List (ℚ × ℚ)) : SimState :=
  (segsOf ps).foldl (processSegment env cfg) (initState cfg)

/-- The callback's observable outcome: the "Invalid Inputs" figure (line 88)
or the computed series of retained samples. -/
inductive Output
  | invalidRoute
  | ok (samples : List Sample)
deriving DecidableEq

/-- The series carried by an outcome (empty for the invalid outcome). -/
def resultSamples : Output → List Sample
  | Output.invalidRoute => []
  | Output.ok l => l

/-- The `geojson` input: `none` models a falsy `geojson`, `some none` a dict
without a `"features"` key, and `some (some fs)` a dict whose `"features"`
list is `fs`, each feature being its `geometry.coordinates` list of
`(lon, lat)` pairs. -/
def GeoJson : Type := Option (Option (List (List (ℚ × ℚ))))

/-- Lines 86-130: the callback.  Returns the outcome together with the list
of provider calls issued during the run (the run's only external effect). -/
def update_solar_production (env : Env) (cfg : Config) (gj : GeoJson) :
    Output × List Call :=
  match gj with
  | none => (Output.invalidRoute, [])
  | some none => (Output.invalidRoute, [])
  | some (some []) => (Output.invalidRoute, [])
  | some (some (f :: _)) =>
    let route_positions : List (ℚ × ℚ) := f.map fun c => (c.2, c.1)
    let st := runRoute env cfg route_positions
    (Output.ok st.samples, st.calls)

/-- The route positions `[(lat, lon) for lon, lat in coordinates]` extracted
from a `geojson` input (empty when the callback rejects the input). -/
def positionsOf (gj : GeoJson) : List (ℚ × ℚ) :=
  match gj with
  | some (some (f :: _)) => f.map fun c => (c.2, c.1)
  | _ => []

/-- The flattened list of evaluation points of a run, segment by segment,
with the running clock advanced by each segment's full duration. -/
def routePoints (env : Env) (cfg : Config) :
    ℚ → List ((ℚ × ℚ) × (ℚ × ℚ)) → List (ℚ × ℚ × ℚ)
  | _, [] => []
  | t, seg :: rest =>
    segPts env cfg t seg ++ routePoints env cfg (t + segDurS env cfg seg) rest

/-- All evaluation points of the run on a `geojson` input, in processing
order. -/
def pointsOf (env : Env) (cfg : Config) (gj : GeoJson) : List (ℚ × ℚ × ℚ) :=
  routePoints env cfg cfg.start (segsOf (positionsOf gj))

/-- Line 119-120: `segment_production = surface_area * kw_per_m2 *
np.sin(np.radians(solar_altitude)) * attenuation`, the instantaneous power of
a retained sample. -/
noncomputable def segment_production (cfg : Config) (s : Sample) : ℝ :=
  (cfg.surface_area : ℝ) * (cfg.kw_per_m2 : ℝ) *
    Real.sin ((s.alt : ℝ) * Real.pi / 180) * (s.att : ℝ)

/-- Line 123: `total_production += segment_production * (10 / 60)`, executed
exactly once per retained sample in retention order, starting from `0`. -/
noncomputable def total_production (cfg : Config) (ss : List Sample) : ℝ :=
  ss.foldl (fun acc s => acc + segment_production cfg s * (10 / 60)) 0

/-- The total traversal duration (seconds) of a list of segments. -/
def totalDur (env : Env) (cfg : Config) (segs : List ((ℚ × ℚ) × (ℚ × ℚ))) : ℚ :=
  (segs.map (segDurS env cfg)).sum

/-- The loop invariant tying the cache, the issued provider calls and the
retained samples to the list `processed` of evaluation points handled so
far:  call dates are pairwise distinct; the cache holds exactly the called
dates; every processed point's date is cached; every call carries the
coordinates of the first processed point of its date; every cached value is
the fetch result for some recorded call; and every retained sample has a
positive apparent elevation at its own point and an attenuation derived
(via the flag) from the fetch result of a recorded call for its date. -/
structure CacheInv (env : Env) (cfg : Config) (processed : List (ℚ × ℚ × ℚ))
    (cache : ℤ → Option ℚ) (calls : List Call) (samples : List Sample) :
    Prop where
  nodup : (calls.map Call.date).Nodup
  cache_iff : ∀ dk : ℤ, (cache dk).isSome ↔ dk ∈ calls.map Call.date
  processed_cached : ∀ p ∈ processed, (cache (dateKey p.1)).isSome
  first_coords : ∀ c ∈ calls,
    ((processed.find? fun p => dateKey p.1 == c.date).map
      fun p => (p.2.1, p.2.2)) = some (c.lat, c.lon)
  cache_val : ∀ dk v, cache dk = some v →
    ∃ la lo, (⟨la, lo, dk⟩ : Call) ∈ calls ∧
      v = fetch_cloud_cover (env.resp la lo dk) dk
  sample_inv : ∀ s ∈ samples,
    ((s.t, s.lat, s.lon) ∈ processed ∧ s.alt = env.elev s.t s.lat s.lon ∧
      0 < s.alt) ∧
    ∃ la lo, (⟨la, lo, dateKey s.t⟩ : Call) ∈ calls ∧
      s.att = if cfg.apply_cloud then
          1 - fetch_cloud_cover (env.resp la lo (dateKey s.t)) (dateKey s.t)
        else 1

/-!  Concrete environments and inputs used to instantiate the theorems.
All of them describe situations the real collaborators can produce: a
constant apparent elevation, a constant great-circle distance (the routes
used consist of identical waypoints, for which `geodesic` returns `0`), and
fixed provider responses. -/

/-- Sun at 45°, zero-length segments, provider answers `200` with an empty
`CLOUD_AMT` table. -/
def env0 : Env :=
  { elev := fun _ _ _ => 45, dist := fun _ _ => 0,
    resp := fun _ _ _ => ⟨200, CloudBody.amt []⟩ }

/-- Like `env0` but the provider reports 50% cloud cover for epoch day 0. -/
def env3 : Env :=
  { elev := fun _ _ _ => 45, dist := fun _ _ => 0,
    resp := fun _ _ _ => ⟨200, CloudBody.amt [(0, 50)]⟩ }

/-- Like `env0` but the provider reports 100% cloud cover for epoch day 0. -/
def env4 : Env :=
  { elev := fun _ _ _ => 45, dist := fun _ _ => 0,
    resp := fun _ _ _ => ⟨200, CloudBody.amt [(0, 100)]⟩ }

/-- Like `env0` but every segment is 10/3 km long, i.e. exactly 10 minutes of
travel at 20 km/h. -/
def env5 : Env :=
  { elev := fun _ _ _ => 45, dist := fun _ _ => 10/3,
    resp := fun _ _ _ => ⟨200, CloudBody.amt []⟩ }

/-- Like `env0` but the sun is 10° below the horizon everywhere. -/
def env6 : Env :=
  { elev := fun _ _ _ => -10, dist := fun _ _ => 0,
    resp := fun _ _ _ => ⟨200, CloudBody.amt []⟩ }

/-- 10 m² of panels at 0.2 kW/m², start at the epoch, 20 km/h, cloud
attenuation disabled. -/
def cfgF : Config :=
  { surface_area := 10, kw_per_m2 := 1/5, start := 0, vessel_speed := 20,
    apply_cloud := false }

/-- `cfgF` with cloud attenuation enabled. -/
def cfgT : Config := { cfgF with apply_cloud := true }

/-- A drawn route with a single waypoint. -/
def gj1 : GeoJson := some (some [[(0, 0)]])

/-- A drawn route with two identical waypoints at the origin. -/
def gj2 : GeoJson := some (some [[(0, 0), (0, 0)]])

/-- A drawn route with three identical waypoints at the origin. -/
def gj3 : GeoJson := some (some [[(0, 0), (0, 0), (0, 0)]])

/-- A drawn route with two distinct waypoints. -/
def gj5 : GeoJson := some (some [[(0, 0), (1, 1)]])

end Solar

namespace Solar

/-!  Basic state lemmas: the inner loop never changes the running clock and
never reads it, so the segment-by-segment run can be flattened into a single
fold over all evaluation points. -/

theorem processPoint_time (env : Env) (cfg : Config) (st : SimState)
    (p : ℚ × ℚ × ℚ) : (processPoint env cfg st p).time = st.time := rfl

theorem foldl_processPoint_time (env : Env) (cfg : Config) :
    ∀ (pts : List (ℚ × ℚ × ℚ)) (st : SimState),
      (pts.foldl (processPoint env cfg) st).time = st.time := by
  intro pts
  induction pts with
  | nil => intro st; rfl
  | cons p pts ih =>
    intro st
    simpa [List.foldl_cons] using ih (processPoint env cfg st p)

theorem processPoint_setTime (env : Env) (cfg : Config) (st : SimState)
    (p : ℚ × ℚ × ℚ) (τ : ℚ) :
    processPoint env cfg { st with time := τ } p =
      { processPoint env cfg st p with time := τ } := rfl

theorem foldl_processPoint_setTime (env : Env) (cfg : Config) :
    ∀ (pts : List (ℚ × ℚ × ℚ)) (st : SimState) (τ : ℚ),
      pts.foldl (processPoint env cfg) { st with time := τ } =
        { pts.foldl (processPoint env cfg) st with time := τ } := by
  intro pts
  induction pts with
  | nil => intro st τ; rfl
  | cons p pts ih =>
    intro st τ
    simp only [List.foldl_cons, processPoint_setTime]
    exact ih (processPoint env cfg st p) τ

theorem foldl_processSegment_eq (env : Env) (cfg : Config) :
    ∀ (segs : List ((ℚ × ℚ) × (ℚ × ℚ))) (st : SimState),
      segs.foldl (processSegment env cfg) st =
        { (routePoints env cfg st.time segs).foldl (processPoint env cfg) st
            with time := st.time + totalDur env cfg segs } := by
  intro segs
  induction segs with
  | nil =>
    intro st
    simp [routePoints, totalDur]
  | cons seg rest ih =>
    intro st
    have hstep : processSegment env cfg st seg =
        { (segPts env cfg st.time seg).foldl (processPoint env cfg) st with
            time := st.time + segDurS env cfg seg } := by
      have ht := foldl_processPoint_time env cfg (segPts env cfg st.time seg) st
      simp [processSegment]
    calc (seg :: rest).foldl (processSegment env cfg) st
        = rest.foldl (processSegment env cfg) (processSegment env cfg st seg) := rfl
      _ = { (routePoints env cfg (st.time + segDurS env cfg seg) rest).foldl
              (processPoint env cfg)
              ((segPts env cfg st.time seg).foldl (processPoint env cfg) st) with
            time := st.time + segDurS env cfg seg + totalDur env cfg rest } := by
          rw [hstep, ih]
          rw [foldl_processPoint_setTime]
      _ = { (routePoints env cfg st.time (seg :: rest)).foldl
              (processPoint env cfg) st with
            time := st.time + totalDur env cfg (seg :: rest) } := by
          simp [routePoints, totalDur, List.foldl_append, add_assoc]

theorem runRoute_eq (env : Env) (cfg : Config) (ps : List (ℚ × ℚ)) :
    runRoute env cfg ps =
      { (routePoints env cfg cfg.start (segsOf ps)).foldl
          (processPoint env cfg) (initState cfg) with
        time := cfg.start + totalDur env cfg (segsOf ps) } := by
  have h := foldl_processSegment_eq env cfg (segsOf ps) (initState cfg)
  simpa [runRoute, initState] using h

end Solar

namespace Solar

/-!  Explicit forms of `processPoint` on a cache hit and on a cache miss. -/

theorem processPoint_of_hit {env : Env} {cfg : Config} {st : SimState}
    {p : ℚ × ℚ × ℚ} (hc : (st.cache (dateKey p.1)).isSome = true) :
    processPoint env cfg st p =
      { time := st.time
        cache := st.cache
        calls := st.calls
        samples :=
          if 0 < env.elev p.1 p.2.1 p.2.2 then
            st.samples ++ [⟨p.1, p.2.1, p.2.2, env.elev p.1 p.2.1 p.2.2,
              if cfg.apply_cloud then 1 - (st.cache (dateKey p.1)).getD 0
              else 1⟩]
          else st.samples } := by
  simp [processPoint, hc]

theorem processPoint_of_miss {env : Env} {cfg : Config} {st : SimState}
    {p : ℚ × ℚ × ℚ} (hc : ¬ (st.cache (dateKey p.1)).isSome = true) :
    processPoint env cfg st p =
      { time := st.time
        cache := fun d =>
          if d = dateKey p.1 then
            some (fetch_cloud_cover (env.resp p.2.1 p.2.2 (dateKey p.1))
              (dateKey p.1))
          else st.cache d
        calls := st.calls ++ [⟨p.2.1, p.2.2, dateKey p.1⟩]
        samples :=
          if 0 < env.elev p.1 p.2.1 p.2.2 then
            st.samples ++ [⟨p.1, p.2.1, p.2.2, env.elev p.1 p.2.1 p.2.2,
              if cfg.apply_cloud then
                1 - fetch_cloud_cover (env.resp p.2.1 p.2.2 (dateKey p.1))
                  (dateKey p.1)
              else 1⟩]
          else st.samples } := by
  simp [processPoint, hc]

end Solar

namespace Solar

theorem find?_append_left {α : Type} {f : α → Bool} {l₁ l₂ : List α} {a : α}
    (h : l₁.find? f = some a) : (l₁ ++ l₂).find? f = some a := by
  rw [List.find?_append, h]; rfl

theorem find?_append_right {α : Type} {f : α → Bool} {l₁ l₂ : List α}
    (h : l₁.find? f = none) : (l₁ ++ l₂).find? f = l₂.find? f := by
  rw [List.find?_append, h]; rfl

end Solar

namespace Solar

theorem processPoint_cache_of_hit {env : Env} {cfg : Config} {st : SimState}
    {p : ℚ × ℚ × ℚ} (hc : (st.cache (dateKey p.1)).isSome = true) :
    (processPoint env cfg st p).cache = st.cache := by
  simp [processPoint, hc]

theorem processPoint_calls_of_hit {env : Env} {cfg : Config} {st : SimState}
    {p : ℚ × ℚ × ℚ} (hc : (st.cache (dateKey p.1)).isSome = true) :
    (processPoint env cfg st p).calls = st.calls := by
  simp [processPoint, hc]

theorem processPoint_samples_of_hit {env : Env} {cfg : Config} {st : SimState}
    {p : ℚ × ℚ × ℚ} (hc : (st.cache (dateKey p.1)).isSome = true) :
    (processPoint env cfg st p).samples =
      if 0 < env.elev p.1 p.2.1 p.2.2 then
        st.samples ++ [⟨p.1, p.2.1, p.2.2, env.elev p.1 p.2.1 p.2.2,
          if cfg.apply_cloud then 1 - (st.cache (dateKey p.1)).getD 0 else 1⟩]
      else st.samples := by
  simp [processPoint, hc]

theorem processPoint_cache_of_miss {env : Env} {cfg : Config} {st : SimState}
    {p : ℚ × ℚ × ℚ} (hc : ¬ (st.cache (dateKey p.1)).isSome = true) :
    (processPoint env cfg st p).cache = fun d =>
      if d = dateKey p.1 then
        some (fetch_cloud_cover (env.resp p.2.1 p.2.2 (dateKey p.1))
          (dateKey p.1))
      else st.cache d := by
  simp [processPoint, hc]

theorem processPoint_calls_of_miss {env : Env} {cfg : Config} {st : SimState}
    {p : ℚ × ℚ × ℚ} (hc : ¬ (st.cache (dateKey p.1)).isSome = true) :
    (processPoint env cfg st p).calls =
      st.calls ++ [⟨p.2.1, p.2.2, dateKey p.1⟩] := by
  simp [processPoint, hc]

theorem processPoint_samples_of_miss {env : Env} {cfg : Config} {st : SimState}
    {p : ℚ × ℚ × ℚ} (hc : ¬ (st.cache (dateKey p.1)).isSome = true) :
    (processPoint env cfg st p).samples =
      if 0 < env.elev p.1 p.2.1 p.2.2 then
        st.samples ++ [⟨p.1, p.2.1, p.2.2, env.elev p.1 p.2.1 p.2.2,
          if cfg.apply_cloud then
            1 - fetch_cloud_cover (env.resp p.2.1 p.2.2 (dateKey p.1))
              (dateKey p.1)
          else 1⟩]
      else st.samples := by
  simp [processPoint, hc]

theorem cacheInv_processPoint {env : Env} {cfg : Config}
    {processed : List (ℚ × ℚ × ℚ)} {st : SimState} (p : ℚ × ℚ × ℚ)
    (inv : CacheInv env cfg processed st.cache st.calls st.samples) :
    CacheInv env cfg (processed ++ [p]) (processPoint env cfg st p).cache
      (processPoint env cfg st p).calls (processPoint env cfg st p).samples := by
  by_cases hc : (st.cache (dateKey p.1)).isSome = true
  · rw [processPoint_cache_of_hit hc, processPoint_calls_of_hit hc,
      processPoint_samples_of_hit hc]
    obtain ⟨v, hv⟩ := Option.isSome_iff_exists.mp hc
    obtain ⟨la, lo, hmem, hval⟩ := inv.cache_val _ v hv
    refine ⟨inv.nodup, inv.cache_iff, ?_, ?_, inv.cache_val, ?_⟩
    · intro q hq
      rcases List.mem_append.mp hq with h | h
      · exact inv.processed_cached q h
      · rw [List.mem_singleton.mp h]; exact hc
    · intro c hcm
      have h0 := inv.first_coords c hcm
      obtain ⟨q, hq, hq2⟩ := Option.map_eq_some'.mp h0
      rw [find?_append_left hq]
      simpa using hq2
    · intro s hs
      split at hs
      next halt =>
        rcases List.mem_append.mp hs with h | h
        · obtain ⟨h1, h2⟩ := inv.sample_inv s h
          exact ⟨⟨List.mem_append_left _ h1.1, h1.2⟩, h2⟩
        · rw [List.mem_singleton.mp h]
          refine ⟨⟨List.mem_append_right _ (List.mem_singleton.mpr rfl),
            rfl, halt⟩, la, lo, hmem, ?_⟩
          rw [hv]
          simp [hval]
      next halt =>
        obtain ⟨h1, h2⟩ := inv.sample_inv s hs
        exact ⟨⟨List.mem_append_left _ h1.1, h1.2⟩, h2⟩
  · rw [processPoint_cache_of_miss hc, processPoint_calls_of_miss hc,
      processPoint_samples_of_miss hc]
    have hdk_not : dateKey p.1 ∉ st.calls.map Call.date := by
      intro hmem
      exact hc ((inv.cache_iff (dateKey p.1)).mpr hmem)
    have hfind_none :
        processed.find? (fun q => dateKey q.1 == dateKey p.1) = none := by
      rw [List.find?_eq_none]
      intro q hq hbeq
      have hq1 : dateKey q.1 = dateKey p.1 := by simpa using hbeq
      exact hc (hq1 ▸ inv.processed_cached q hq)
    have hfind_p :
        (processed ++ [p]).find? (fun q => dateKey q.1 == dateKey p.1) =
          some p := by
      rw [find?_append_right hfind_none]
      simp
    refine ⟨?_, ?_, ?_, ?_, ?_, ?_⟩
    · rw [List.map_append]
      refine List.Nodup.append inv.nodup (List.nodup_singleton _) ?_
      intro a ha hb
      simp only [List.map_cons, List.map_nil, List.mem_singleton] at hb
      subst hb
      exact hdk_not ha
    · intro dk
      by_cases hdq : dk = dateKey p.1
      · subst hdq; simp
      · simp only [if_neg hdq]
        rw [inv.cache_iff dk]
        simp [hdq]
    · intro q hq
      rcases List.mem_append.mp hq with h | h
      · by_cases hdq : dateKey q.1 = dateKey p.1
        · simp [hdq]
        · simp only [if_neg hdq]
          exact inv.processed_cached q h
      · rw [List.mem_singleton.mp h]; simp
    · intro c hcm
      rcases List.mem_append.mp hcm with h | h
      · have h0 := inv.first_coords c h
        obtain ⟨q, hq, hq2⟩ := Option.map_eq_some'.mp h0
        rw [find?_append_left hq]
        simpa using hq2
      · rw [List.mem_singleton.mp h]
        rw [hfind_p]
        rfl
    · intro dk v hv
      by_cases hdq : dk = dateKey p.1
      · subst hdq
        rw [if_pos rfl] at hv
        refine ⟨p.2.1, p.2.2,
          List.mem_append_right _ (List.mem_singleton.mpr rfl), ?_⟩
        exact (Option.some_inj.mp hv).symm
      · rw [if_neg hdq] at hv
        obtain ⟨la, lo, hmem, hval⟩ := inv.cache_val dk v hv
        exact ⟨la, lo, List.mem_append_left _ hmem, hval⟩
    · intro s hs
      split at hs
      next halt =>
        rcases List.mem_append.mp hs with h | h
        · obtain ⟨h1, la, lo, hm, ha⟩ := inv.sample_inv s h
          exact ⟨⟨List.mem_append_left _ h1.1, h1.2.1, h1.2.2⟩,
            la, lo, List.mem_append_left _ hm, ha⟩
        · rw [List.mem_singleton.mp h]
          exact ⟨⟨List.mem_append_right _ (List.mem_singleton.mpr rfl),
            rfl, halt⟩,
            p.2.1, p.2.2,
            List.mem_append_right _ (List.mem_singleton.mpr rfl), rfl⟩
      next halt =>
        obtain ⟨h1, la, lo, hm, ha⟩ := inv.sample_inv s hs
        exact ⟨⟨List.mem_append_left _ h1.1, h1.2.1, h1.2.2⟩,
          la, lo, List.mem_append_left _ hm, ha⟩

end Solar

namespace Solar

theorem cacheInv_foldl {env : Env} {cfg : Config} :
    ∀ (pts : List (ℚ × ℚ × ℚ)) (st : SimState)
      (processed : List (ℚ × ℚ × ℚ)),
      CacheInv env cfg processed st.cache st.calls st.samples →
      CacheInv env cfg (processed ++ pts)
        ((pts.foldl (processPoint env cfg) st)).cache
        ((pts.foldl (processPoint env cfg) st)).calls
        ((pts.foldl (processPoint env cfg) st)).samples := by
  intro pts
  induction pts with
  | nil =>
    intro st processed inv
    simpa using inv
  | cons p pts ih =>
    intro st processed inv
    have h := ih (processPoint env cfg st p) (processed ++ [p])
      (cacheInv_processPoint p inv)
    simpa [List.append_assoc] using h

theorem cacheInv_init (env : Env) (cfg : Config) :
    CacheInv env cfg [] (initState cfg).cache (initState cfg).calls
      (initState cfg).samples := by
  refine ⟨?_, ?_, ?_, ?_, ?_, ?_⟩ <;> simp [initState]

theorem runRoute_cacheInv (env : Env) (cfg : Config) (ps : List (ℚ × ℚ)) :
    CacheInv env cfg (routePoints env cfg cfg.start (segsOf ps))
      (runRoute env cfg ps).cache (runRoute env cfg ps).calls
      (runRoute env cfg ps).samples := by
  have h := cacheInv_foldl (routePoints env cfg cfg.start (segsOf ps))
    (initState cfg) [] (cacheInv_init env cfg)
  rw [runRoute_eq]
  simpa using h

end Solar

namespace Solar

/-!  Bridges between the callback and the route loop: uniformly (also in the
rejected-input cases, where the route is empty and the loop is a no-op), the
callback's calls and retained samples are those of `runRoute` on
`positionsOf gj`. -/

theorem update_calls (env : Env) (cfg : Config) (gj : GeoJson) :
    (update_solar_production env cfg gj).2 =
      (runRoute env cfg (positionsOf gj)).calls := by
  rcases gj with _ | gj
  · rfl
  rcases gj with _ | fs
  · rfl
  rcases fs with _ | ⟨f, rest⟩
  · rfl
  · rfl

theorem update_samples (env : Env) (cfg : Config) (gj : GeoJson) :
    resultSamples (update_solar_production env cfg gj).1 =
      (runRoute env cfg (positionsOf gj)).samples := by
  rcases gj with _ | gj
  · rfl
  rcases gj with _ | fs
  · rfl
  rcases fs with _ | ⟨f, rest⟩
  · rfl
  · rfl

/-- The callback-level cache invariant, over all evaluation points of the
run. -/
theorem update_cacheInv (env : Env) (cfg : Config) (gj : GeoJson) :
    CacheInv env cfg (pointsOf env cfg gj)
      (runRoute env cfg (positionsOf gj)).cache
      (update_solar_production env cfg gj).2
      (resultSamples (update_solar_production env cfg gj).1) := by
  rw [update_calls, update_samples]
  exact runRoute_cacheInv env cfg (positionsOf gj)

/-!  The inner loop appends samples whose timestamps form a sublist of the
timestamps of the processed points. -/

theorem foldl_samples_sublist (env : Env) (cfg : Config) :
    ∀ (pts : List (ℚ × ℚ × ℚ)) (st : SimState),
      ∃ ex : List Sample,
        (pts.foldl (processPoint env cfg) st).samples = st.samples ++ ex ∧
        (ex.map Sample.t).Sublist (pts.map fun p => p.1) := by
  intro pts
  induction pts with
  | nil => intro st; exact ⟨[], by simp, by simp⟩
  | cons p pts ih =>
    intro st
    have hstep : ∃ e0 : List Sample,
        (processPoint env cfg st p).samples = st.samples ++ e0 ∧
        (e0.map Sample.t).Sublist [p.1] := by
      by_cases hc : (st.cache (dateKey p.1)).isSome = true
      · rw [processPoint_samples_of_hit hc]
        by_cases halt : 0 < env.elev p.1 p.2.1 p.2.2
        · rw [if_pos halt]
          exact ⟨_, rfl, by simp⟩
        · rw [if_neg halt]
          exact ⟨[], by simp, by simp⟩
      · rw [processPoint_samples_of_miss hc]
        by_cases halt : 0 < env.elev p.1 p.2.1 p.2.2
        · rw [if_pos halt]
          exact ⟨_, rfl, by simp⟩
        · rw [if_neg halt]
          exact ⟨[], by simp, by simp⟩
    obtain ⟨e0, he0, he0s⟩ := hstep
    obtain ⟨ex, hex, hexs⟩ := ih (processPoint env cfg st p)
    refine ⟨e0 ++ ex, ?_, ?_⟩
    · rw [List.foldl_cons, hex, he0, List.append_assoc]
    · rw [List.map_append]
      exact List.Sublist.append he0s hexs

/-!  The accumulated total is the sum of the per-sample contributions. -/

theorem foldl_add_eq_sum (g : Sample → ℝ) :
    ∀ (l : List Sample) (a : ℝ),
      l.foldl (fun acc s => acc + g s) a = a + (l.map g).sum := by
  intro l
  induction l with
  | nil => intro a; simp
  | cons s l ih =>
    intro a
    rw [List.foldl_cons, ih, List.map_cons, List.sum_cons]
    ring

end Solar

namespace Solar

theorem processSegment_samples (env : Env) (cfg : Config) (st : SimState)
    (seg : (ℚ × ℚ) × (ℚ × ℚ)) :
    (processSegment env cfg st seg).samples =
      ((segPts env cfg st.time seg).foldl (processPoint env cfg) st).samples :=
  rfl

theorem processSegment_time (env : Env) (cfg : Config) (st : SimState)
    (seg : (ℚ × ℚ) × (ℚ × ℚ)) :
    (processSegment env cfg st seg).time = st.time + segDurS env cfg seg :=
  rfl

theorem segPts_times (env : Env) (cfg : Config) (t0 : ℚ)
    (seg : (ℚ × ℚ) × (ℚ × ℚ)) :
    (segPts env cfg t0 seg).map (fun p => p.1) =
      (List.range (segSteps env cfg seg)).map fun (j : ℕ) =>
        t0 + 600 * (j : ℚ) := by
  simp [segPts, List.map_map]

theorem segPts_times_chain (env : Env) (cfg : Config) (t0 : ℚ)
    (seg : (ℚ × ℚ) × (ℚ × ℚ)) :
    List.Chain' (· ≤ ·) ((segPts env cfg t0 seg).map fun p => p.1) := by
  rw [segPts_times]
  refine List.Pairwise.chain' ?_
  refine List.Pairwise.map _ ?_ (List.pairwise_lt_range _)
  intro a b hab
  have : (a : ℚ) ≤ (b : ℚ) := by exact_mod_cast le_of_lt hab
  nlinarith

theorem segPts_times_bounds (env : Env) (cfg : Config) (t0 : ℚ)
    (seg : (ℚ × ℚ) × (ℚ × ℚ)) (y : ℚ)
    (hy : y ∈ (segPts env cfg t0 seg).map fun p => p.1) :
    t0 ≤ y ∧ y ≤ t0 + 600 * ((segSteps env cfg seg : ℚ) - 1) := by
  rw [segPts_times] at hy
  obtain ⟨j, hj, rfl⟩ := List.mem_map.mp hy
  rw [List.mem_range] at hj
  have hj1 : (1 : ℚ) ≤ segSteps env cfg seg - (j : ℚ) := by
    have : (j : ℚ) + 1 ≤ (segSteps env cfg seg : ℚ) := by exact_mod_cast hj
    linarith
  constructor
  · have : (0 : ℚ) ≤ (j : ℚ) := by positivity
    linarith
  · nlinarith [hj1]

theorem segSteps_bound (env : Env) (cfg : Config) (seg : (ℚ × ℚ) × (ℚ × ℚ))
    (h : 600 ≤ segDurS env cfg seg) :
    600 * ((segSteps env cfg seg : ℚ) - 1) ≤ segDurS env cfg seg := by
  have hx1 : (1 : ℚ) ≤ segDurS env cfg seg / 600 := by
    rw [le_div_iff₀ (by norm_num : (0:ℚ) < 600)]
    linarith
  have hx0 : (0 : ℚ) ≤ segDurS env cfg seg / 600 := by linarith
  have hm : ratTrunc (segDurS env cfg seg / 600) =
      ⌊segDurS env cfg seg / 600⌋ := if_pos hx0
  have hfl : ((⌊segDurS env cfg seg / 600⌋ : ℚ)) ≤ segDurS env cfg seg / 600 :=
    Int.floor_le _
  have hxd : segDurS env cfg seg / 600 * 600 = segDurS env cfg seg :=
    div_mul_cancel₀ _ (by norm_num)
  have hcast : ((segSteps env cfg seg : ℚ)) =
      ((max 2 ⌊segDurS env cfg seg / 600⌋ : ℤ) : ℚ) := by
    rw [segSteps, hm]
    have hnn : (0 : ℤ) ≤ max 2 ⌊segDurS env cfg seg / 600⌋ :=
      le_trans (by norm_num) (le_max_left _ _)
    exact_mod_cast Int.toNat_of_nonneg hnn
  rcases le_total (⌊segDurS env cfg seg / 600⌋ : ℤ) 2 with hle | hge
  · rw [hcast, max_eq_left hle]
    norm_num
    linarith
  · rw [hcast, max_eq_right hge]
    nlinarith

theorem processSegment_chain (env : Env) (cfg : Config) (st : SimState)
    (seg : (ℚ × ℚ) × (ℚ × ℚ)) (hdur : 600 ≤ segDurS env cfg seg)
    (h1 : List.Chain' (· ≤ ·) (st.samples.map Sample.t))
    (h2 : ∀ s ∈ st.samples, s.t ≤ st.time) :
    List.Chain' (· ≤ ·)
      ((processSegment env cfg st seg).samples.map Sample.t) ∧
    ∀ s ∈ (processSegment env cfg st seg).samples,
      s.t ≤ (processSegment env cfg st seg).time := by
  obtain ⟨ex, hex, hsub⟩ :=
    foldl_samples_sublist env cfg (segPts env cfg st.time seg) st
  rw [processSegment_samples, hex, processSegment_time]
  have hbound := segSteps_bound env cfg seg hdur
  have hmemT : ∀ y ∈ ex.map Sample.t,
      st.time ≤ y ∧ y ≤ st.time + 600 * ((segSteps env cfg seg : ℚ) - 1) :=
    fun y hy => segPts_times_bounds env cfg st.time seg y (hsub.subset hy)
  constructor
  · rw [List.map_append]
    rw [List.chain'_append]
    refine ⟨h1, ?_, ?_⟩
    · exact (segPts_times_chain env cfg st.time seg).sublist hsub
    · intro x hx y hy
      have hxm := List.mem_of_mem_getLast? hx
      obtain ⟨s, hs, rfl⟩ := List.mem_map.mp hxm
      have hym := List.mem_of_mem_head? hy
      have := (hmemT _ hym).1
      exact le_trans (h2 s hs) this
  · intro s hs
    rcases List.mem_append.mp hs with h | h
    · have := h2 s h
      linarith
    · have hst : s.t ∈ ex.map Sample.t := List.mem_map.mpr ⟨s, h, rfl⟩
      have := (hmemT _ hst).2
      linarith

theorem foldl_processSegment_chain (env : Env) (cfg : Config) :
    ∀ (segs : List ((ℚ × ℚ) × (ℚ × ℚ))) (st : SimState),
      (∀ seg ∈ segs, 600 ≤ segDurS env cfg seg) →
      List.Chain' (· ≤ ·) (st.samples.map Sample.t) →
      (∀ s ∈ st.samples, s.t ≤ st.time) →
      List.Chain' (· ≤ ·)
        ((segs.foldl (processSegment env cfg) st).samples.map Sample.t) := by
  intro segs
  induction segs with
  | nil => intro st _ h1 _; exact h1
  | cons seg rest ih =>
    intro st hdur h1 h2
    have hstep := processSegment_chain env cfg st seg
      (hdur seg (List.mem_cons_self seg rest)) h1 h2
    exact ih (processSegment env cfg st seg)
      (fun sg hsg => hdur sg (List.mem_cons_of_mem seg hsg)) hstep.1 hstep.2

end Solar

namespace Solar

/-!  The cloud toggle influences only the attenuation stored in the retained
samples: the cache, the provider calls and the running clock are computed
identically whether or not attenuation is applied. -/

theorem processPoint_cache_congr (env : Env) (cfg cfg' : Config)
    (st st' : SimState) (p : ℚ × ℚ × ℚ) (hcache : st.cache = st'.cache) :
    (processPoint env cfg st p).cache = (processPoint env cfg' st' p).cache := by
  simp [processPoint, hcache]

theorem processPoint_calls_congr (env : Env) (cfg cfg' : Config)
    (st st' : SimState) (p : ℚ × ℚ × ℚ) (hcache : st.cache = st'.cache)
    (hcalls : st.calls = st'.calls) :
    (processPoint env cfg st p).calls = (processPoint env cfg' st' p).calls := by
  simp [processPoint, hcache, hcalls]

theorem foldl_processPoint_congr (env : Env) (cfg cfg' : Config) :
    ∀ (pts : List (ℚ × ℚ × ℚ)) (st st' : SimState),
      st.cache = st'.cache → st.calls = st'.calls →
      (pts.foldl (processPoint env cfg) st).cache =
          (pts.foldl (processPoint env cfg') st').cache ∧
        (pts.foldl (processPoint env cfg) st).calls =
          (pts.foldl (processPoint env cfg') st').calls := by
  intro pts
  induction pts with
  | nil => intro st st' h1 h2; exact ⟨h1, h2⟩
  | cons p pts ih =>
    intro st st' h1 h2
    exact ih (processPoint env cfg st p) (processPoint env cfg' st' p)
      (processPoint_cache_congr env cfg cfg' st st' p h1)
      (processPoint_calls_congr env cfg cfg' st st' p h1 h2)

theorem foldl_processSegment_congr (env : Env) (cfg : Config) (b : Bool) :
    ∀ (segs : List ((ℚ × ℚ) × (ℚ × ℚ))) (st st' : SimState),
      st.time = st'.time → st.cache = st'.cache → st.calls = st'.calls →
      (segs.foldl (processSegment env { cfg with apply_cloud := b }) st).time =
          (segs.foldl (processSegment env cfg) st').time ∧
        (segs.foldl (processSegment env { cfg with apply_cloud := b }) st).cache =
          (segs.foldl (processSegment env cfg) st').cache ∧
        (segs.foldl (processSegment env { cfg with apply_cloud := b }) st).calls =
          (segs.foldl (processSegment env cfg) st').calls := by
  intro segs
  induction segs with
  | nil => intro st st' h0 h1 h2; exact ⟨h0, h1, h2⟩
  | cons seg rest ih =>
    intro st st' h0 h1 h2
    have hseg : segPts env { cfg with apply_cloud := b } st.time seg =
        segPts env cfg st'.time seg := by rw [h0]; rfl
    have hinner := foldl_processPoint_congr env
      { cfg with apply_cloud := b } cfg
      (segPts env cfg st'.time seg) st st' h1 h2
    refine ih (processSegment env { cfg with apply_cloud := b } st seg)
      (processSegment env cfg st' seg) ?_ ?_ ?_
    · rw [processSegment_time, processSegment_time, h0]
      rfl
    · show ((segPts env { cfg with apply_cloud := b } st.time seg).foldl
          (processPoint env { cfg with apply_cloud := b }) st).cache =
        ((segPts env cfg st'.time seg).foldl (processPoint env cfg) st').cache
      rw [hseg]
      exact hinner.1
    · show ((segPts env { cfg with apply_cloud := b } st.time seg).foldl
          (processPoint env { cfg with apply_cloud := b }) st).calls =
        ((segPts env cfg st'.time seg).foldl (processPoint env cfg) st').calls
      rw [hseg]
      exact hinner.2

theorem runRoute_calls_flag (env : Env) (cfg : Config) (b : Bool)
    (ps : List (ℚ × ℚ)) :
    (runRoute env { cfg with apply_cloud := b } ps).calls =
      (runRoute env cfg ps).calls := by
  have h := foldl_processSegment_congr env cfg b (segsOf ps)
    (initState { cfg with apply_cloud := b }) (initState cfg) rfl rfl rfl
  exact h.2.2

end Solar

namespace Solar

theorem segSteps_ge_two (env : Env) (cfg : Config)
    (seg : (ℚ × ℚ) × (ℚ × ℚ)) : 2 ≤ segSteps env cfg seg := by
  rw [segSteps]
  have hnn : (0 : ℤ) ≤ max 2 (ratTrunc (segDurS env cfg seg / 600)) :=
    le_trans (by norm_num) (le_max_left _ _)
  exact (Int.le_toNat hnn).mpr (by exact_mod_cast le_max_left _ _)

theorem segSteps_eq_floor (env : Env) (cfg : Config)
    (seg : (ℚ × ℚ) × (ℚ × ℚ)) (h1 : 0 ≤ env.dist seg.1 seg.2)
    (h2 : 0 < cfg.vessel_speed) :
    ((segSteps env cfg seg : ℤ)) = max 2 ⌊segDurS env cfg seg / 600⌋ := by
  have hd : 0 ≤ segDurS env cfg seg := by
    rw [segDurS]
    have := div_nonneg h1 (le_of_lt h2)
    linarith
  have hq : 0 ≤ segDurS env cfg seg / 600 := by positivity
  rw [segSteps, ratTrunc, if_pos hq]
  exact Int.toNat_of_nonneg (le_trans (by norm_num) (le_max_left _ _))

theorem segPts_length (env : Env) (cfg : Config) (t0 : ℚ)
    (seg : (ℚ × ℚ) × (ℚ × ℚ)) :
    (segPts env cfg t0 seg).length = segSteps env cfg seg := by
  simp [segPts]

end Solar

namespace Solar

/-- Claim C1: for every route and config, the total energy accumulated by the
simulation (line 123, `total_production += segment_production * (10 / 60)`,
once per retained sample) equals exactly the sum, over all retained samples,
of that sample's instantaneous power multiplied by the fixed step duration
10/60 hours, regardless of the actual time gaps between consecutive samples
introduced at segment boundaries. -/
theorem C1_total_energy_eq_sum (env : Env) (cfg : Config) (gj : GeoJson) :
    total_production cfg (resultSamples (update_solar_production env cfg gj).1) =
      ((resultSamples (update_solar_production env cfg gj).1).map
        (fun s => segment_production cfg s * (10 / 60))).sum := by
  rw [total_production, foldl_add_eq_sum]
  simp

/-- Claim C2 counterexample: with the cloud-attenuation flag false, the
provider is nonetheless called (the cache lookup of lines 112-113 is not
guarded by the flag), refuting "the external cloud-cover provider is never
called during the run". -/
theorem C2_counterexample :
    cfgF.apply_cloud = false ∧ (update_solar_production env0 cfgF gj2).2 ≠ [] := by
  exact ⟨rfl, by decide⟩

/-- Claim C2, amended: with the flag false every sample is evaluated with
attenuation 1, but the provider is still queried exactly as it would be with
the flag true (one call per new date) — the lookups are not skipped. -/
theorem C2_flag_false_attenuation_one (env : Env) (cfg : Config)
    (gj : GeoJson) (hflag : cfg.apply_cloud = false) :
    (∀ s ∈ resultSamples (update_solar_production env cfg gj).1, s.att = 1) ∧
    (update_solar_production env cfg gj).2 =
      (update_solar_production env { cfg with apply_cloud := true } gj).2 := by
  constructor
  · intro s hs
    obtain ⟨_, la, lo, _, ha⟩ := (update_cacheInv env cfg gj).sample_inv s hs
    rw [ha, hflag]
    simp
  · rw [update_calls, update_calls]
    exact (runRoute_calls_flag env cfg true (positionsOf gj)).symm

theorem C2_witness :
    (⟨600, 0, 0, 45, 1⟩ : Sample).att = 1 ∧
    (update_solar_production env0 cfgF gj2).2 =
      (update_solar_production env0 { cfgF with apply_cloud := true } gj2).2 := by
  exact ⟨(C2_flag_false_attenuation_one env0 cfgF gj2 rfl).1 _ (by decide),
    (C2_flag_false_attenuation_one env0 cfgF gj2 rfl).2⟩

/-- Claim C3 counterexample: with attenuation enabled and the provider
reporting 100% cloud cover, a sample with positive elevation is retained in
the result with attenuation 0 and therefore instantaneous power 0 — refuting
"every sample present in the result has power strictly > 0". -/
theorem C3_counterexample :
    (⟨0, 0, 0, 45, 0⟩ : Sample) ∈
        resultSamples (update_solar_production env4 cfgT gj2).1 ∧
    ¬ 0 < segment_production cfgT ⟨0, 0, 0, 45, 0⟩ := by
  constructor
  · decide
  · have h : segment_production cfgT ⟨0, 0, 0, 45, 0⟩ = 0 := by
      simp [segment_production]
    rw [h]
    exact lt_irrefl 0

/-- Claim C3, amended: a sample whose solar elevation is not strictly
positive is excluded from the result entirely, so every sample present has
elevation strictly greater than 0; its power is strictly positive provided
the panel parameters are positive, its attenuation is positive, and its
elevation is below 180° (power 0 occurs when the attenuation is 0). -/
theorem C3_result_samples_daylight (env : Env) (cfg : Config) (gj : GeoJson)
    (s : Sample)
    (hs : s ∈ resultSamples (update_solar_production env cfg gj).1) :
    0 < s.alt ∧
    (0 < cfg.surface_area → 0 < cfg.kw_per_m2 → 0 < s.att → s.alt < 180 →
      0 < segment_production cfg s) := by
  obtain ⟨⟨_, _, halt⟩, _⟩ := (update_cacheInv env cfg gj).sample_inv s hs
  refine ⟨halt, ?_⟩
  intro hA hk hatt hlt
  rw [segment_production]
  have hsin : 0 < Real.sin ((s.alt : ℝ) * Real.pi / 180) := by
    apply Real.sin_pos_of_pos_of_lt_pi
    · have h0 : (0:ℝ) < (s.alt : ℝ) := by exact_mod_cast halt
      have hpi : 0 < Real.pi := Real.pi_pos
      positivity
    · have h180 : (s.alt : ℝ) < 180 := by exact_mod_cast hlt
      have hpi : 0 < Real.pi := Real.pi_pos
      have hmul : (s.alt : ℝ) * Real.pi < 180 * Real.pi :=
        mul_lt_mul_of_pos_right h180 hpi
      linarith
  have hA' : (0:ℝ) < (cfg.surface_area : ℝ) := by exact_mod_cast hA
  have hk' : (0:ℝ) < (cfg.kw_per_m2 : ℝ) := by exact_mod_cast hk
  have hatt' : (0:ℝ) < (s.att : ℝ) := by exact_mod_cast hatt
  exact mul_pos (mul_pos (mul_pos hA' hk') hsin) hatt'

theorem C3_witness :
    0 < (⟨600, 0, 0, 45, 1⟩ : Sample).alt ∧
    0 < segment_production cfgF ⟨600, 0, 0, 45, 1⟩ := by
  have h := C3_result_samples_daylight env0 cfgF gj2 ⟨600, 0, 0, 45, 1⟩
    (by decide)
  exact ⟨h.1, h.2 (by decide) (by decide) (by decide) (by decide)⟩

/-- Claim C4 counterexample: on a route of three identical waypoints every
(zero-length) segment still produces two samples 10 minutes apart while the
clock does not advance, so the first sample of the second segment is earlier
than the last sample of the first — the output series is not ordered by
increasing timestamp. -/
theorem C4_counterexample :
    ¬ List.Chain' (· ≤ ·)
      ((resultSamples (update_solar_production env0 cfgF gj3).1).map
        Sample.t) := by
  have h : (resultSamples (update_solar_production env0 cfgF gj3).1).map
      Sample.t = [0, 600, 0, 600] := by decide
  rw [h]
  norm_num [List.chain'_cons]

/-- Claim C4, amended: timestamps are nondecreasing across the whole output
series provided every segment's traversal duration is at least 10 minutes
(600 s); for shorter segments the clock advance (line 108) falls behind the
10-minute sampling grid, and the first sample of the next segment can predate
the last sample of the previous one. -/
theorem C4_timestamps_monotone (env : Env) (cfg : Config)
    (f : List (ℚ × ℚ)) (rest : List (List (ℚ × ℚ)))
    (hdur : ∀ seg ∈ segsOf (positionsOf (some (some (f :: rest)))),
      600 ≤ segDurS env cfg seg) :
    List.Chain' (· ≤ ·)
      ((resultSamples
        (update_solar_production env cfg (some (some (f :: rest)))).1).map
        Sample.t) := by
  rw [update_samples]
  exact foldl_processSegment_chain env cfg
    (segsOf (positionsOf (some (some (f :: rest))))) (initState cfg) hdur
    (by simp [initState]) (by simp [initState])

theorem C4_witness :
    (∀ seg ∈ segsOf (positionsOf gj5), 600 ≤ segDurS env5 cfgF seg) ∧
    List.Chain' (· ≤ ·)
      ((resultSamples (update_solar_production env5 cfgF gj5).1).map
        Sample.t) := by
  exact ⟨by decide, C4_timestamps_monotone env5 cfgF [(0, 0), (1, 1)] []
    (by decide)⟩

end Solar

namespace Solar

/-- Claim C5 counterexample: a successful provider lookup (status 200,
well-formed payload reporting 50% cloud for the date) happens during a run
with the flag disabled, yet the attenuation used for the date's samples is 1,
not 1 − the returned fraction (= 1/2) — so "for every date lookup, on
provider success the attenuation used is 1 minus the returned cloud
fraction" fails as stated. -/
theorem C5_counterexample :
    (⟨0, 0, 0, 45, 1⟩ : Sample) ∈
        resultSamples (update_solar_production env3 cfgF gj2).1 ∧
    (⟨0, 0, 0⟩ : Call) ∈ (update_solar_production env3 cfgF gj2).2 ∧
    fetch_cloud_cover (env3.resp 0 0 0) 0 = 1/2 ∧
    (1 : ℚ) ≠ 1 - fetch_cloud_cover (env3.resp 0 0 0) 0 := by
  exact ⟨by decide, by decide, by decide, by decide⟩

/-- Claim C5, amended: the fetched factor is the returned cloud fraction on a
fully successful response and 0 on any provider failure (non-success status,
malformed payload, missing parameter) — no error is raised, the fetch is a
total function; and every retained sample's attenuation is 1 minus the
fetched factor of a recorded call for its date when the flag is true, and 1
when the flag is false (even when a successful lookup occurred). -/
theorem C5_attenuation_from_fetch (env : Env) (cfg : Config) (gj : GeoJson) :
    (∀ (r : CloudResponse) (d : ℤ), r.status ≠ 200 →
      fetch_cloud_cover r d = 0) ∧
    (∀ d : ℤ, fetch_cloud_cover ⟨200, CloudBody.malformed⟩ d = 0 ∧
      fetch_cloud_cover ⟨200, CloudBody.missingKeys⟩ d = 0) ∧
    (∀ (m : List (ℤ × ℚ)) (d : ℤ),
      fetch_cloud_cover ⟨200, CloudBody.amt m⟩ d =
        ((List.lookup d m).getD 0) / 100) ∧
    (∀ s ∈ resultSamples (update_solar_production env cfg gj).1,
      ∃ la lo, (⟨la, lo, dateKey s.t⟩ : Call) ∈
          (update_solar_production env cfg gj).2 ∧
        s.att = if cfg.apply_cloud then
            1 - fetch_cloud_cover (env.resp la lo (dateKey s.t)) (dateKey s.t)
          else 1) := by
  refine ⟨?_, ?_, ?_, ?_⟩
  · intro r d h
    simp [fetch_cloud_cover, h]
  · intro d
    exact ⟨rfl, rfl⟩
  · intro m d
    rfl
  · intro s hs
    exact ((update_cacheInv env cfg gj).sample_inv s hs).2

theorem C5_witness :
    fetch_cloud_cover ⟨404, CloudBody.missingKeys⟩ 0 = 0 ∧
    fetch_cloud_cover ⟨200, CloudBody.amt [(0, 50)]⟩ 0 = 1/2 := by
  constructor
  · exact (C5_attenuation_from_fetch env0 cfgF gj2).1
      ⟨404, CloudBody.missingKeys⟩ 0 (by decide)
  · rw [(C5_attenuation_from_fetch env0 cfgF gj2).2.2.1 [(0, 50)] 0]
    decide

/-- Claim C6: within a single run the call dates are pairwise distinct (the
provider is queried at most once per calendar date), and every issued call
carries the coordinates of the first evaluation point of its date, in
processing order; later samples of the date reuse the cached factor. -/
theorem C6_cache_once_per_date (env : Env) (cfg : Config) (gj : GeoJson) :
    (((update_solar_production env cfg gj).2).map Call.date).Nodup ∧
    ∀ c ∈ (update_solar_production env cfg gj).2,
      (((pointsOf env cfg gj).find? fun p => dateKey p.1 == c.date).map
        fun p => (p.2.1, p.2.2)) = some (c.lat, c.lon) := by
  exact ⟨(update_cacheInv env cfg gj).nodup,
    (update_cacheInv env cfg gj).first_coords⟩

theorem C6_witness :
    (((update_solar_production env0 cfgF gj2).2).map Call.date).Nodup ∧
    (((pointsOf env0 cfgF gj2).find? fun p => dateKey p.1 == (0 : ℤ)).map
      fun p => (p.2.1, p.2.2)) = some (0, 0) := by
  exact ⟨(C6_cache_once_per_date env0 cfgF gj2).1,
    (C6_cache_once_per_date env0 cfgF gj2).2 ⟨0, 0, 0⟩ (by decide)⟩

/-- Claim C7 counterexample: a present, nonempty feature whose coordinate
list has a single waypoint is not rejected: the callback returns a normal
(empty) result, not the invalid-route outcome — only a falsy `geojson`, a
missing `"features"` key or an empty feature list are rejected. -/
theorem C7_counterexample :
    (update_solar_production env0 cfgF gj1).1 ≠ Output.invalidRoute ∧
    (update_solar_production env0 cfgF gj1).2 = [] := by
  exact ⟨by decide, by decide⟩

/-- Claim C7, amended: a falsy `geojson`, a dict without a `"features"` key,
or an empty features list makes the callback return the explicit
invalid-route outcome with no provider calls; a route with fewer than 2
waypoints inside a present feature is instead processed normally, producing
an empty series, zero total and no provider calls (the loop body never
runs). -/
theorem C7_invalid_route_handling (env : Env) (cfg : Config)
    (f : List (ℚ × ℚ)) (rest : List (List (ℚ × ℚ))) :
    (update_solar_production env cfg none = (Output.invalidRoute, []) ∧
     update_solar_production env cfg (some none) = (Output.invalidRoute, []) ∧
     update_solar_production env cfg (some (some [])) =
       (Output.invalidRoute, [])) ∧
    (f.length < 2 →
      update_solar_production env cfg (some (some (f :: rest))) =
        (Output.ok [], [])) := by
  refine ⟨⟨rfl, rfl, rfl⟩, ?_⟩
  intro hlen
  match f with
  | [] => rfl
  | [c] => rfl
  | c1 :: c2 :: t => exact absurd hlen (by simp)

theorem C7_witness :
    ([((0:ℚ), (0:ℚ))].length < 2) ∧
    update_solar_production env0 cfgF (some (some [[(0, 0)]])) =
      (Output.ok [], []) := by
  exact ⟨by decide,
    (C7_invalid_route_handling env0 cfgF [(0, 0)] []).2 (by decide)⟩

/-- Claim C8: the number of evaluation points of a segment is
`max(2, ⌊duration-in-seconds / 600⌋)` (with duration = distance / speed
hours, for the nonnegative distances and positive speeds of real inputs,
where Python's `int()` truncation agrees with the floor); in particular
every segment, including a zero-length one, contributes at least 2
samples. -/
theorem C8_segment_sample_count (env : Env) (cfg : Config) (t0 : ℚ)
    (a b : ℚ × ℚ) (h1 : 0 ≤ env.dist a b) (h2 : 0 < cfg.vessel_speed) :
    ((segPts env cfg t0 (a, b)).length : ℤ) =
        max 2 ⌊segDurS env cfg (a, b) / 600⌋ ∧
      2 ≤ (segPts env cfg t0 (a, b)).length := by
  rw [segPts_length]
  exact ⟨segSteps_eq_floor env cfg (a, b) h1 h2,
    segSteps_ge_two env cfg (a, b)⟩

theorem C8_witness :
    ((segPts env0 cfgF 0 ((0, 0), (0, 0))).length : ℤ) =
        max 2 ⌊segDurS env0 cfgF ((0, 0), (0, 0)) / 600⌋ ∧
      2 ≤ (segPts env0 cfgF 0 ((0, 0), (0, 0))).length :=
  C8_segment_sample_count env0 cfgF 0 (0, 0) (0, 0) (by decide) (by decide)

/-- Claim C9: within a segment the sample at index `j` is stamped
start-of-segment time plus `j` times 10 minutes (600 s), and after the
segment the running clock is advanced by the segment's full traversal
duration `segDurS` — not by the sum of the per-sample 10-minute deltas. -/
theorem C9_segment_timestamps (env : Env) (cfg : Config) (t0 : ℚ)
    (seg : (ℚ × ℚ) × (ℚ × ℚ)) :
    (∀ (j : ℕ) (h : j < (segPts env cfg t0 seg).length),
      ((segPts env cfg t0 seg).get ⟨j, h⟩).1 = t0 + 600 * (j : ℚ)) ∧
    ∀ st : SimState,
      (processSegment env cfg st seg).time = st.time + segDurS env cfg seg := by
  constructor
  · intro j h
    simp [segPts, List.get_eq_getElem]
  · intro st
    exact processSegment_time env cfg st seg

theorem C9_witness :
    ((segPts env0 cfgF 0 ((0, 0), (0, 0))).get ⟨1, by decide⟩).1 =
        0 + 600 * (1 : ℚ) ∧
    (processSegment env0 cfgF (initState cfgF) ((0, 0), (0, 0))).time =
      (initState cfgF).time + segDurS env0 cfgF ((0, 0), (0, 0)) := by
  exact ⟨(C9_segment_timestamps env0 cfgF 0 ((0, 0), (0, 0))).1 1 (by decide),
    (C9_segment_timestamps env0 cfgF 0 ((0, 0), (0, 0))).2 (initState cfgF)⟩

/-- Claim C10: with the cloud-attenuation flag true, the provider is
consulted when a sample's date is first seen, before the elevation test
(lines 110-114 precede lines 116-118); consequently every date occurring
among the run's evaluation points is queried exactly once, even a date all
of whose points are at or below the horizon — which then contributes no
samples to the output. -/
theorem C10_dark_date_provider_call (env : Env) (cfg : Config) (gj : GeoJson)
    (d : ℤ) (_hflag : cfg.apply_cloud = true)
    (hmem : d ∈ (pointsOf env cfg gj).map fun p => dateKey p.1) :
    (((update_solar_production env cfg gj).2).map Call.date).count d = 1 ∧
    ((∀ p ∈ pointsOf env cfg gj, dateKey p.1 = d →
        env.elev p.1 p.2.1 p.2.2 ≤ 0) →
      ∀ s ∈ resultSamples (update_solar_production env cfg gj).1,
        dateKey s.t ≠ d) := by
  have inv := update_cacheInv env cfg gj
  obtain ⟨p, hp, hpd⟩ := List.mem_map.mp hmem
  have hcached := inv.processed_cached p hp
  rw [hpd] at hcached
  have hdmem : d ∈ ((update_solar_production env cfg gj).2).map Call.date :=
    (inv.cache_iff d).mp hcached
  constructor
  · exact List.count_eq_one_of_mem inv.nodup hdmem
  · intro hdark s hs hd
    obtain ⟨⟨hmem2, halt_eq, halt⟩, _⟩ := inv.sample_inv s hs
    have hle := hdark (s.t, s.lat, s.lon) hmem2 hd
    rw [halt_eq] at halt
    exact absurd halt (not_lt.mpr hle)

theorem C10_witness :
    cfgT.apply_cloud = true ∧
    (0 : ℤ) ∈ (pointsOf env6 cfgT gj2).map (fun p => dateKey p.1) ∧
    (((update_solar_production env6 cfgT gj2).2).map Call.date).count 0 = 1 ∧
    resultSamples (update_solar_production env6 cfgT gj2).1 = [] := by
  refine ⟨rfl, by decide, ?_, by decide⟩
  exact (C10_dark_date_provider_call env6 cfgT gj2 0 rfl (by decide)).1

end Solar
